import Mathlib

/-!
Verification of the ethcli configuration store
(`src/ethcli/config_commands.py`): the JSON configuration document, the
`load_config`/`save_config` persistence layer, dotted-path `get`/`set`
traversal, and the string-to-value coercion heuristic applied by
`config set`.

The Python dictionaries handled by `json.load`/`json.dump` are embedded as
insertion-ordered association lists; Python floats are embedded as an
explicit type with `nan`, signed infinity, and finite values kept as the
exact decimal rational denoted by the literal (rounding to the nearest
IEEE double is below the granularity any statement here needs).
-/

/-- A Python float as produced by `float(...)` on a string: `nan`,
`inf sgn` (`sgn = true` for negative infinity), or a finite value kept as
the exact rational the decimal literal denotes. -/
inductive FloatVal where
  | nan : FloatVal
  | inf : Bool → FloatVal
  | finite : ℚ → FloatVal

/-- A JSON value as handled by `json.load`/`json.dump`: null, booleans,
integers, floats, strings, arrays, and objects (Python dicts) kept as
insertion-ordered association lists. -/
inductive Value where
  | null : Value
  | bool : Bool → Value
  | int : Int → Value
  | float : FloatVal → Value
  | str : String → Value
  | arr : List Value → Value
  | dict : List (String × Value) → Value

/-- Python dict key lookup `d[k]`, on a dict represented as its
insertion-ordered entry list. -/
def lookupEntry : List (String × Value) → String → Option Value
  | [], _ => none
  | (k, v) :: es, key => if k == key then some v else lookupEntry es key

/-- Python dict assignment `d[k] = v`: overwrites the existing binding in
place when the key is present, otherwise appends the new binding at the
end (insertion order). -/
def setEntry : List (String × Value) → String → Value → List (String × Value)
  | [], key, v => [(key, v)]
  | (k, w) :: es, key, v =>
      if k == key then (key, v) :: es else (k, w) :: setEntry es key v

/-- Python's `str.lower()` (ASCII case mapping; the strings compared
case-insensitively in this program are ASCII). -/
def lowerStr (s : String) : String :=
  ⟨s.data.map Char.toLower⟩

/-- Python's `key.split('.')`: splits on every dot, so the empty string
yields the single segment `""` and consecutive dots yield empty segments. -/
def splitDotAux (cur : List Char) : List Char → List String
  | [] => [⟨cur.reverse⟩]
  | c :: cs =>
      if c == '.' then ⟨cur.reverse⟩ :: splitDotAux [] cs
      else splitDotAux (c :: cur) cs

/-- Split a dotted key path exactly as `key.split('.')` does. -/
def splitDot (s : String) : List String :=
  splitDotAux [] s.data

/-- The whitespace characters stripped by Python's `int()`/`float()`
string conversion (ASCII subset; the further Unicode space characters
never occur in this development). -/
def isPySpace (c : Char) : Bool :=
  c == ' ' || c == '\t' || c == '\n' || c == '\r' || c == '\x0b' || c == '\x0c'

/-- Strip leading and trailing Python whitespace from a character list. -/
def pyStrip (cs : List Char) : List Char :=
  ((cs.dropWhile isPySpace).reverse.dropWhile isPySpace).reverse

/-- Accumulating helper for `digitRun`: consumes the rest of a digit run in
which a single underscore may stand between two digits. -/
def digitRunAux : Nat → List Char → Option Nat
  | acc, [] => some acc
  | acc, '_' :: c :: cs =>
      if c.isDigit then digitRunAux (10 * acc + (c.toNat - 48)) cs else none
  | _, ['_'] => none
  | acc, c :: cs =>
      if c.isDigit then digitRunAux (10 * acc + (c.toNat - 48)) cs else none

/-- Parse a character list that is exactly a run of ASCII digits with
single underscores allowed between digits (the CPython numeric-literal
grammar `digit (["_"] digit)*`), returning its value. -/
def digitRun : List Char → Option Nat
  | [] => none
  | c :: cs => if c.isDigit then digitRunAux (c.toNat - 48) cs else none

/-- Model of CPython's `int(s)` for a string argument: surrounding
whitespace is stripped, an optional sign precedes a digit run with
underscores allowed between digits (so `int(" 42 ") = 42` and
`int("1_000") = 1000`, while `"_1"`, `"1_"`, `"1__0"`, `""` fail).
Restricted to ASCII digits; CPython also accepts non-ASCII decimal
digits, which never occur here. -/
def pyInt (s : String) : Option Int :=
  match pyStrip s.data with
  | '+' :: cs => (digitRun cs).map Int.ofNat
  | '-' :: cs => (digitRun cs).map (fun n => -(n : Int))
  | cs => (digitRun cs).map Int.ofNat

/-- Consume the maximal leading digit run, where a single underscore may
stand between two digits but never before the first digit consumed (the
CPython grammar `digit (["_"] digit)*`); returns the run's value, the
number of digits consumed, and the rest. A leading underscore stops the
run at once, so the callers reject the input as CPython does. -/
def takeDigits : Nat → Nat → List Char → Nat × Nat × List Char
  | v, n, '_' :: c :: cs =>
      if n != 0 && c.isDigit then takeDigits (10 * v + (c.toNat - 48)) (n + 1) cs
      else (v, n, '_' :: c :: cs)
  | v, n, c :: cs =>
      if c.isDigit then takeDigits (10 * v + (c.toNat - 48)) (n + 1) cs
      else (v, n, c :: cs)
  | v, n, [] => (v, n, [])

/-- Parse an exponent suffix body `[sign] digits` (to the end of input). -/
def expPart : List Char → Option Int
  | '+' :: cs => (digitRun cs).map Int.ofNat
  | '-' :: cs => (digitRun cs).map (fun n => -(n : Int))
  | cs => (digitRun cs).map Int.ofNat

/-- The rational denoted by integer part `ip`, fractional digits of value
`fp` and count `fn`, and decimal exponent `e`. -/
def decimalQ (ip fp fn : Nat) (e : Int) : ℚ :=
  ((ip : ℚ) + (fp : ℚ) / ((10 : ℚ) ^ fn)) * (10 : ℚ) ^ e

/-- Parse the unsigned numeric body of a CPython float literal:
`[digits] ["." [digits]] [("e"|"E") [sign] digits]`, requiring at least
one mantissa digit, underscores allowed inside each digit run. -/
def pyFloatMag (cs : List Char) : Option ℚ :=
  match takeDigits 0 0 cs with
  | (ip, ipn, rest) =>
    match rest with
    | [] => if ipn == 0 then none else some (decimalQ ip 0 0 0)
    | '.' :: rest2 =>
      match takeDigits 0 0 rest2 with
      | (fp, fn, rest3) =>
        if ipn + fn == 0 then none
        else
          match rest3 with
          | [] => some (decimalQ ip fp fn 0)
          | 'e' :: rest4 => (expPart rest4).map (decimalQ ip fp fn)
          | 'E' :: rest4 => (expPart rest4).map (decimalQ ip fp fn)
          | _ => none
    | 'e' :: rest4 =>
        if ipn == 0 then none else (expPart rest4).map (decimalQ ip 0 0)
    | 'E' :: rest4 =>
        if ipn == 0 then none else (expPart rest4).map (decimalQ ip 0 0)
    | _ => none

/-- Parse the body of a CPython float after the optional sign: the named
specials `inf`/`infinity`/`nan` (case-insensitive) or a numeric literal. -/
def pyFloatBody (neg : Bool) (cs : List Char) : Option FloatVal :=
  let low := cs.map Char.toLower
  if low = ['i', 'n', 'f'] ∨ low = ['i', 'n', 'f', 'i', 'n', 'i', 't', 'y'] then
    some (.inf neg)
  else if low = ['n', 'a', 'n'] then some .nan
  else (pyFloatMag cs).map (fun q => .finite (if neg then -q else q))

/-- Model of CPython's `float(s)` for a string argument: strip surrounding
whitespace, optional sign, then `inf`/`infinity`/`nan` or a decimal
literal with optional fraction and exponent. Finite results keep the
exact decimal value (IEEE rounding and overflow to infinity for huge
exponents are below the granularity needed here). -/
def pyFloat (s : String) : Option FloatVal :=
  match pyStrip s.data with
  | '+' :: cs => pyFloatBody false cs
  | '-' :: cs => pyFloatBody true cs
  | cs => pyFloatBody false cs

/-- The value-coercion heuristic of `set_config_value`
(config_commands.py): case-insensitive `"true"`/`"false"` become
booleans, case-insensitive `"none"`/`"null"` become null, otherwise
`int(value)` is tried, then `float(value)`, and on failure the string is
kept verbatim. -/
def coerceValue (value : String) : Value :=
  if lowerStr value == "true" then .bool true
  else if lowerStr value == "false" then .bool false
  else if lowerStr value == "none" || lowerStr value == "null" then .null
  else
    match pyInt value with
    | some n => .int n
    | none =>
      match pyFloat value with
      | some f => .float f
      | none => .str value

/-- The built-in default configuration document `DEFAULT_CONFIG`
(config_commands.py lines 12–23). -/
def DEFAULT_CONFIG : Value :=
  .dict
    [ ("default_network", .str "mainnet"),
      ("default_wallet_alias", .null),
      ("default_gas_limit", .int 2000000),
      ("default_rpc_urls", .dict
        [ ("mainnet", .str "https://mainnet.infura.io/v3/YOUR_INFURA_PROJECT_ID"),
          ("goerli", .str "https://goerli.infura.io/v3/YOUR_INFURA_PROJECT_ID"),
          ("sepolia", .str "https://sepolia.infura.io/v3/YOUR_INFURA_PROJECT_ID") ]),
      ("custom_networks", .dict []),
      ("etherscan_api_key", .null) ]

/-- A lexical token of the JSON text handled by `json.dump`/`json.load`.
The lexical layer proper (whitespace, `indent=2`, digit strings) is below
this granularity; a finite float literal is carried as its exact decimal
value. `jnan`, `jinf`, `jninf` are the tokens `NaN`, `Infinity`,
`-Infinity` that `json.dump` emits for non-finite floats (its default
`allow_nan=True`) and `json.load` accepts. -/
inductive JTok where
  | lbrace : JTok
  | rbrace : JTok
  | lbrack : JTok
  | rbrack : JTok
  | colon : JTok
  | comma : JTok
  | jstr : String → JTok
  | jint : Int → JTok
  | jnum : ℚ → JTok
  | jtrue : JTok
  | jfalse : JTok
  | jnull : JTok
  | jnan : JTok
  | jinf : JTok
  | jninf : JTok

/-- Whether a token has a representation in the JSON grammar of RFC 8259.
`NaN`, `Infinity` and `-Infinity` do not (the Python documentation itself
notes that emitting them violates the JSON specification); every other
token serializes conformantly. -/
def rfcTok : JTok → Bool
  | .jnan => false
  | .jinf => false
  | .jninf => false
  | _ => true

mutual

/-- The token stream `json.dump` writes for a value. -/
def dumpToks : Value → List JTok
  | .null => [.jnull]
  | .bool true => [.jtrue]
  | .bool false => [.jfalse]
  | .int n => [.jint n]
  | .float .nan => [.jnan]
  | .float (.inf false) => [.jinf]
  | .float (.inf true) => [.jninf]
  | .float (.finite q) => [.jnum q]
  | .str s => [.jstr s]
  | .arr xs => .lbrack :: (dumpItems xs ++ [.rbrack])
  | .dict es => .lbrace :: (dumpEntries es ++ [.rbrace])

/-- Comma-separated array items. -/
def dumpItems : List Value → List JTok
  | [] => []
  | [x] => dumpToks x
  | x :: y :: xs => dumpToks x ++ (.comma :: dumpItems (y :: xs))

/-- Comma-separated `"key": value` object members. -/
def dumpEntries : List (String × Value) → List JTok
  | [] => []
  | [(k, v)] => .jstr k :: .colon :: dumpToks v
  | (k, v) :: e :: es =>
      .jstr k :: .colon :: (dumpToks v ++ (.comma :: dumpEntries (e :: es)))

end

mutual

/-- Parse one JSON value from a token stream, returning it and the
remaining tokens (model of `json.load` above the lexical layer). `fuel`
is a recursion bound; `loads` supplies enough for any input. Mirrors the
strict JSON grammar plus the `NaN`/`Infinity`/`-Infinity` constants that
`json.load` accepts by default. -/
def parseVal : Nat → List JTok → Option (Value × List JTok)
  | 0, _ => none
  | _ + 1, .jnull :: ts => some (.null, ts)
  | _ + 1, .jtrue :: ts => some (.bool true, ts)
  | _ + 1, .jfalse :: ts => some (.bool false, ts)
  | _ + 1, .jint n :: ts => some (.int n, ts)
  | _ + 1, .jnum q :: ts => some (.float (.finite q), ts)
  | _ + 1, .jnan :: ts => some (.float .nan, ts)
  | _ + 1, .jinf :: ts => some (.float (.inf false), ts)
  | _ + 1, .jninf :: ts => some (.float (.inf true), ts)
  | _ + 1, .jstr s :: ts => some (.str s, ts)
  | f + 1, .lbrack :: ts => (parseArr f ts).map (fun p => (Value.arr p.1, p.2))
  | f + 1, .lbrace :: ts => (parseObj f ts).map (fun p => (Value.dict p.1, p.2))
  | _ + 1, _ => none

/-- After `[`: an empty array, or a first item followed by the tail. -/
def parseArr : Nat → List JTok → Option (List Value × List JTok)
  | 0, _ => none
  | f + 1, ts =>
    match parseVal f ts with
    | some (v, rest) => parseArrRest f v rest
    | none =>
      match ts with
      | .rbrack :: ts2 => some ([], ts2)
      | _ => none

/-- After an array item: `]` closes, `,` demands a further item (a
trailing comma is rejected, as `json.load` rejects it). -/
def parseArrRest : Nat → Value → List JTok → Option (List Value × List JTok)
  | 0, _, _ => none
  | _ + 1, v, .rbrack :: ts => some ([v], ts)
  | f + 1, v, .comma :: ts =>
    match parseVal f ts with
    | some (w, rest) => (parseArrRest f w rest).map (fun p => (v :: p.1, p.2))
    | none => none
  | _ + 1, _, _ => none

/-- After `{`: an empty object, or a first `"key": value` member. Members
are collected in textual order; a duplicate key is kept (for `json.load`
the later binding wins, but no file written by this program, whose dicts
have unique keys, contains one). -/
def parseObj : Nat → List JTok → Option (List (String × Value) × List JTok)
  | 0, _ => none
  | _ + 1, .rbrace :: ts => some ([], ts)
  | f + 1, .jstr k :: .colon :: ts =>
    match parseVal f ts with
    | some (v, rest) => parseObjRest f k v rest
    | none => none
  | _ + 1, _ => none

/-- After an object member: `}` closes, `,` demands a further member. -/
def parseObjRest : Nat → String → Value → List JTok → Option (List (String × Value) × List JTok)
  | 0, _, _, _ => none
  | _ + 1, k, v, .rbrace :: ts => some ([(k, v)], ts)
  | f + 1, k, v, .comma :: .jstr k2 :: .colon :: ts =>
    match parseVal f ts with
    | some (w, rest) => (parseObjRest f k2 w rest).map (fun p => ((k, v) :: p.1, p.2))
    | none => none
  | _ + 1, _, _, _ => none

end

/-- Model of `json.load`: parse one value consuming the whole token
stream. The fuel `2 * ts.length + 1` exceeds the recursion depth needed
for any stream (proved sufficient for every `dumpToks` output below). -/
def loads (ts : List JTok) : Option Value :=
  match parseVal (2 * ts.length + 1) ts with
  | some (v, []) => some v
  | _ => none

/-- The on-disk state of the configuration file: absent, unreadable (an
`IOError` on open or read), or present with the given token stream (for
files written by this program, the `dumpToks` stream of the saved
document; whitespace and `indent=2` live below the token level). -/
inductive FileState where
  | absent : FileState
  | unreadable : FileState
  | file : List JTok → FileState

/-- `save_config` (config_commands.py lines 38–46): serialize with
`json.dump` and write the file, creating the directory as needed. An
`IOError` (modelled by `ioOk = false`) is caught inside the function: an
error message is echoed and the function returns normally, giving the
caller NO error indication. Returns the new file state and whether the
error message was printed. -/
def save_config (config_data : Value) (fs : FileState) (ioOk : Bool) :
    FileState × Bool :=
  if ioOk then (.file (dumpToks config_data), false) else (fs, true)

/-- Result of `load_config`: the document returned, the resulting file
state, and whether the could-not-load warning was echoed. -/
structure LoadResult where
  doc : Value
  fs : FileState
  warned : Bool

/-- `load_config` (config_commands.py lines 25–36): a missing file is
created with the defaults (via `save_config`, whose failure would be
silent) and the defaults returned; an unreadable or unparseable file
produces a warning and a copy of the defaults, the file untouched;
otherwise the parsed document is returned verbatim. -/
def load_config (fs : FileState) (ioOk : Bool) : LoadResult :=
  match fs with
  | .absent =>
    { doc := DEFAULT_CONFIG, fs := (save_config DEFAULT_CONFIG .absent ioOk).1,
      warned := false }
  | .unreadable => { doc := DEFAULT_CONFIG, fs := .unreadable, warned := true }
  | .file ts =>
    match loads ts with
    | some v => { doc := v, fs := .file ts, warned := false }
    | none => { doc := DEFAULT_CONFIG, fs := .file ts, warned := true }

/-- How a `set` traversal fails. `invalidParentPath` is the error branch
of the segment loop in `set_config_value` ("Key path ... is not a valid
dictionary in config"). `typeError` stands for the uncaught Python
`TypeError` of subscripting a non-dict top-level document, reachable only
when the stored JSON top level is not an object; no theorem below
exercises that case. -/
inductive SetErr where
  | invalidParentPath : SetErr
  | typeError : SetErr

/-- The dotted-path update of `set_config_value` (config_commands.py
lines 74–87 and 107): walk every segment but the last, requiring each to
name an existing entry holding a dict (else the invalid-parent error);
then perform Python dict assignment of the coerced value at the final
segment. The in-place mutation of the nested dict is rendered as
reconstruction along the traversed path. -/
def setPath : Value → List String → Value → Except SetErr Value
  | _, [], _ => .error .typeError
  | .dict es, [k], x => .ok (.dict (setEntry es k x))
  | _, [_], _ => .error .typeError
  | .dict es, k :: rest, x =>
    match lookupEntry es k with
    | some (.dict es2) =>
      match setPath (.dict es2) rest x with
      | .ok w => .ok (.dict (setEntry es k w))
      | .error e => .error e
    | _ => .error .invalidParentPath
  | _, _ :: _ :: _, _ => .error .typeError

/-- Observable outcome of one `config set` invocation. -/
structure SetResult where
  exitCode : Nat
  printedSuccess : Bool
  printedParentErr : Bool
  printedSaveErr : Bool
  fs : FileState

/-- `config set key value` end to end (`set_config_value`, lines 52–110):
load, split the key on dots, traverse, coerce the raw string, assign,
save. The invalid-parent branch echoes its message and `return`s (exit
status 0, nothing written); the `typeError` case is an uncaught traceback
(exit 1). On the success path `save_config` is called and the
confirmation is echoed unconditionally afterwards — a save `IOError` is
invisible here, so the exit status is 0 and `printedSuccess` is true even
when `ioOk = false`. -/
def set_config_value (key value : String) (fs : FileState) (ioOk : Bool) :
    SetResult :=
  let loaded := load_config fs ioOk
  match setPath loaded.doc (splitDot key) (coerceValue value) with
  | .error .invalidParentPath =>
    { exitCode := 0, printedSuccess := false, printedParentErr := true,
      printedSaveErr := false, fs := loaded.fs }
  | .error .typeError =>
    { exitCode := 1, printedSuccess := false, printedParentErr := false,
      printedSaveErr := false, fs := loaded.fs }
  | .ok newDoc =>
    { exitCode := 0, printedSuccess := true, printedParentErr := false,
      printedSaveErr := (save_config newDoc loaded.fs ioOk).2,
      fs := (save_config newDoc loaded.fs ioOk).1 }

/-- How a `get` traversal fails: `keyNotFound` is Python's `KeyError`
(segment absent from a dict), `notATraversable` is Python's `TypeError`
(subscripting whatever is not a dict: a string, number, boolean, null or
list all reject a string subscript). -/
inductive GetErr where
  | keyNotFound : GetErr
  | notATraversable : GetErr

/-- The dotted-path read of `get_config_value` (lines 126–130):
successive `current_level[k_part]` over all segments. -/
def getPath : Value → List String → Except GetErr Value
  | v, [] => .ok v
  | .dict es, k :: rest =>
    match lookupEntry es k with
    | some w => getPath w rest
    | none => .error .keyNotFound
  | _, _ :: _ => .error .notATraversable

/-- Observable outcome of one `config get` invocation. -/
structure GetResult where
  exitCode : Nat
  printedAll : Bool
  printedValue : Option Value
  printedKeyErr : Bool
  printedTypeErr : Bool
  fs : FileState

/-- `config get [key]` end to end (`get_config_value`, lines 112–135): an
omitted or empty key prints the whole document; otherwise the dotted
traversal runs with `KeyError` and `TypeError` caught and echoed as error
messages. Every branch returns normally, so the exit status is 0, and
nothing is ever saved. -/
def get_config_value (key : String) (fs : FileState) (ioOk : Bool) :
    GetResult :=
  let loaded := load_config fs ioOk
  if key == "" then
    { exitCode := 0, printedAll := true, printedValue := none,
      printedKeyErr := false, printedTypeErr := false, fs := loaded.fs }
  else
    match getPath loaded.doc (splitDot key) with
    | .ok v =>
      { exitCode := 0, printedAll := false, printedValue := some v,
        printedKeyErr := false, printedTypeErr := false, fs := loaded.fs }
    | .error .keyNotFound =>
      { exitCode := 0, printedAll := false, printedValue := none,
        printedKeyErr := true, printedTypeErr := false, fs := loaded.fs }
    | .error .notATraversable =>
      { exitCode := 0, printedAll := false, printedValue := none,
        printedKeyErr := false, printedTypeErr := true, fs := loaded.fs }

/-- `config reset` after confirmation (`reset_config`, lines 138–144):
save the defaults. Returns the new file state and whether the save error
message was printed. -/
def reset_config (fs : FileState) (ioOk : Bool) : FileState × Bool :=
  save_config DEFAULT_CONFIG fs ioOk

/-- The reading Python's `==` gives a numeric JSON leaf: booleans are the
integers 0/1, ints and finite floats compare by exact value, the two
infinities and `nan` are distinct non-rational points. -/
inductive NumRep where
  | nan : NumRep
  | pinf : NumRep
  | ninf : NumRep
  | fin : ℚ → NumRep

/-- The numeric rep of a leaf, if it is numeric. -/
def numRep : Value → Option NumRep
  | .bool b => some (.fin (if b then 1 else 0))
  | .int n => some (.fin (n : ℚ))
  | .float .nan => some .nan
  | .float (.inf false) => some .pinf
  | .float (.inf true) => some .ninf
  | .float (.finite q) => some (.fin q)
  | _ => none

/-- Python `==` between two numeric values. `nan == nan` is false. -/
def numEq : NumRep → NumRep → Bool
  | .pinf, .pinf => true
  | .ninf, .ninf => true
  | .fin a, .fin b => a == b
  | _, _ => false

mutual

/-- Python deep equality `==` on JSON values: numeric leaves compare
through the numeric tower (`True == 1`, `1 == 1.0`, but `nan != nan`),
null and strings directly, lists pointwise, dicts by equal key sets with
`==`-equal values. -/
def pyEq : Value → Value → Bool
  | .null, .null => true
  | .str a, .str b => a == b
  | .arr xs, .arr ys => pyEqList xs ys
  | .dict es, .dict fs =>
      Nat.beq es.length fs.length && pyEqSub es fs &&
        fs.all (fun e => (lookupEntry es e.1).isSome)
  | a, b =>
    match numRep a, numRep b with
    | some x, some y => numEq x y
    | _, _ => false

/-- Pointwise Python `==` on lists. -/
def pyEqList : List Value → List Value → Bool
  | [], [] => true
  | x :: xs, y :: ys => pyEq x y && pyEqList xs ys
  | _, _ => false

/-- Every binding of the first dict is `==`-matched in the second. -/
def pyEqSub : List (String × Value) → List (String × Value) → Bool
  | [], _ => true
  | (k, v) :: es, fs =>
    (match lookupEntry fs k with
     | some w => pyEq v w
     | none => false) && pyEqSub es fs

end

mutual

/-- No `nan` leaf anywhere in the value. -/
def noNaN : Value → Bool
  | .float .nan => false
  | .arr xs => noNaNList xs
  | .dict es => noNaNEntries es
  | _ => true

/-- `noNaN` over array items. -/
def noNaNList : List Value → Bool
  | [] => true
  | x :: xs => noNaN x && noNaNList xs

/-- `noNaN` over dict entries. -/
def noNaNEntries : List (String × Value) → Bool
  | [] => true
  | (_, v) :: es => noNaN v && noNaNEntries es

end

mutual

/-- No non-finite float (`nan` or an infinity) anywhere in the value:
exactly the values whose `json.dump` output is strict RFC 8259 JSON. -/
def allFinite : Value → Bool
  | .float .nan => false
  | .float (.inf _) => false
  | .arr xs => allFiniteList xs
  | .dict es => allFiniteEntries es
  | _ => true

/-- `allFinite` over array items. -/
def allFiniteList : List Value → Bool
  | [] => true
  | x :: xs => allFinite x && allFiniteList xs

/-- `allFinite` over dict entries. -/
def allFiniteEntries : List (String × Value) → Bool
  | [] => true
  | (_, v) :: es => allFinite v && allFiniteEntries es

end

/-- Pairwise-distinct strings. -/
def distinctKeys : List String → Bool
  | [] => true
  | k :: ks => !(ks.contains k) && distinctKeys ks

mutual

/-- Every dict inside the value has pairwise-distinct keys: the invariant
of real Python dicts, automatic for every document this program handles. -/
def wfDoc : Value → Bool
  | .arr xs => wfDocList xs
  | .dict es => distinctKeys (es.map Prod.fst) && wfDocEntries es
  | _ => true

/-- `wfDoc` over array items. -/
def wfDocList : List Value → Bool
  | [] => true
  | x :: xs => wfDoc x && wfDocList xs

/-- `wfDoc` over dict entries. -/
def wfDocEntries : List (String × Value) → Bool
  | [] => true
  | (_, v) :: es => wfDoc v && wfDocEntries es

end

/-- Whether all six keys of the default schema are present at the top
level of a document. -/
def hasDefaultKeys (v : Value) : Bool :=
  match v with
  | .dict es =>
      (lookupEntry es "default_network").isSome &&
      (lookupEntry es "default_wallet_alias").isSome &&
      (lookupEntry es "default_gas_limit").isSome &&
      (lookupEntry es "default_rpc_urls").isSome &&
      (lookupEntry es "custom_networks").isSome &&
      (lookupEntry es "etherscan_api_key").isSome
  | _ => false

mutual

/-- Recursion fuel sufficient for `parseVal` on the `dumpToks` stream of a
value (proved sufficient in `parseVal_dump`). -/
def pfuel : Value → Nat
  | .arr xs => 1 + pfuelItems xs
  | .dict es => 1 + pfuelEntries es
  | _ => 1

/-- Fuel sufficient for `parseArrRest` on a dumped item tail. -/
def pfuelItems : List Value → Nat
  | [] => 1
  | x :: xs => 1 + pfuel x + pfuelItems xs

/-- Fuel sufficient for `parseObjRest` on a dumped member tail. -/
def pfuelEntries : List (String × Value) → Nat
  | [] => 1
  | (_, v) :: es => 1 + pfuel v + pfuelEntries es

end

/-- The tokens following the first array item: `, item` repeated. -/
def dumpItemsTail : List Value → List JTok
  | [] => []
  | y :: ys => .comma :: (dumpToks y ++ dumpItemsTail ys)

/-- The tokens following the first object member: `, "key": value`
repeated. -/
def dumpEntriesTail : List (String × Value) → List JTok
  | [] => []
  | (k, v) :: es => .comma :: .jstr k :: .colon :: (dumpToks v ++ dumpEntriesTail es)

theorem dumpItems_cons (x : Value) (xs : List Value) :
    dumpItems (x :: xs) = dumpToks x ++ dumpItemsTail xs := by
  induction xs generalizing x with
  | nil => simp [dumpItems, dumpItemsTail]
  | cons y ys ih => simp [dumpItems, dumpItemsTail, ih y]

theorem dumpEntries_cons (k : String) (v : Value) (es : List (String × Value)) :
    dumpEntries ((k, v) :: es) = .jstr k :: .colon :: (dumpToks v ++ dumpEntriesTail es) := by
  induction es generalizing k v with
  | nil => simp [dumpEntries, dumpEntriesTail]
  | cons e es ih =>
    obtain ⟨k2, w⟩ := e
    simp [dumpEntries, dumpEntriesTail, ih k2 w]

theorem parseVal_rbrack (f : Nat) (ts : List JTok) :
    parseVal f (.rbrack :: ts) = none := by
  cases f <;> simp [parseVal]

theorem pfuel_pos (v : Value) : 1 ≤ pfuel v := by
  cases v <;> simp [pfuel]

theorem pfuelItems_pos (xs : List Value) : 1 ≤ pfuelItems xs := by
  cases xs with
  | nil => simp [pfuelItems]
  | cons x xs => simp [pfuelItems]; omega

theorem pfuelEntries_pos (es : List (String × Value)) : 1 ≤ pfuelEntries es := by
  cases es with
  | nil => simp [pfuelEntries]
  | cons e es =>
    obtain ⟨k, v⟩ := e
    simp [pfuelEntries]
    omega

mutual

/-- `json.load` inverts `json.dump`: parsing the dumped token stream of
any value, with enough fuel, yields the value back and leaves the
following tokens untouched. -/
theorem parseVal_dump : ∀ (v : Value) (rest : List JTok) (f : Nat),
    pfuel v ≤ f → parseVal f (dumpToks v ++ rest) = some (v, rest)
  | v, _, 0, h => by have := pfuel_pos v; omega
  | .null, rest, f + 1, _ => by simp [dumpToks, parseVal]
  | .bool true, rest, f + 1, _ => by simp [dumpToks, parseVal]
  | .bool false, rest, f + 1, _ => by simp [dumpToks, parseVal]
  | .int n, rest, f + 1, _ => by simp [dumpToks, parseVal]
  | .float .nan, rest, f + 1, _ => by simp [dumpToks, parseVal]
  | .float (.inf false), rest, f + 1, _ => by simp [dumpToks, parseVal]
  | .float (.inf true), rest, f + 1, _ => by simp [dumpToks, parseVal]
  | .float (.finite q), rest, f + 1, _ => by simp [dumpToks, parseVal]
  | .str s, rest, f + 1, _ => by simp [dumpToks, parseVal]
  | .arr [], rest, f + 1, hf => by
      obtain ⟨f2, rfl⟩ : ∃ f2, f = f2 + 1 := by
        refine ⟨f - 1, ?_⟩
        simp [pfuel, pfuelItems] at hf
        omega
      simp [dumpToks, dumpItems, parseVal, parseArr, parseVal_rbrack]
  | .arr (x :: xs), rest, f + 1, hf => by
      simp [pfuel, pfuelItems] at hf
      obtain ⟨f2, rfl⟩ : ∃ f2, f = f2 + 1 := ⟨f - 1, by omega⟩
      have h1 := parseVal_dump x (dumpItemsTail xs ++ .rbrack :: rest) f2 (by omega)
      have h2 := parseArrRest_dump xs x rest f2 (by omega)
      simp [dumpToks, dumpItems_cons, parseVal, parseArr, h1, h2]
  | .dict [], rest, f + 1, hf => by
      obtain ⟨f2, rfl⟩ : ∃ f2, f = f2 + 1 := by
        refine ⟨f - 1, ?_⟩
        simp [pfuel, pfuelEntries] at hf
        omega
      simp [dumpToks, dumpEntries, parseVal, parseObj]
  | .dict ((k, v) :: es), rest, f + 1, hf => by
      simp [pfuel, pfuelEntries] at hf
      obtain ⟨f2, rfl⟩ : ∃ f2, f = f2 + 1 := ⟨f - 1, by omega⟩
      have h1 := parseVal_dump v (dumpEntriesTail es ++ .rbrace :: rest) f2 (by omega)
      have h2 := parseObjRest_dump es k v rest f2 (by omega)
      simp [dumpToks, dumpEntries_cons, parseVal, parseObj, h1, h2]

/-- `parseArrRest` consumes a dumped item tail plus the closing bracket. -/
theorem parseArrRest_dump : ∀ (ys : List Value) (v : Value) (rest : List JTok) (g : Nat),
    pfuelItems ys ≤ g →
    parseArrRest g v (dumpItemsTail ys ++ .rbrack :: rest) = some (v :: ys, rest)
  | ys, _, _, 0, h => by have := pfuelItems_pos ys; omega
  | [], v, rest, g + 1, _ => by simp [dumpItemsTail, parseArrRest]
  | y :: ys, v, rest, g + 1, hg => by
      simp [pfuelItems] at hg
      have h1 := parseVal_dump y (dumpItemsTail ys ++ .rbrack :: rest) g (by omega)
      have h2 := parseArrRest_dump ys y rest g (by omega)
      simp [dumpItemsTail, parseArrRest, h1, h2]

/-- `parseObjRest` consumes a dumped member tail plus the closing brace. -/
theorem parseObjRest_dump : ∀ (es : List (String × Value)) (k : String) (v : Value)
    (rest : List JTok) (g : Nat),
    pfuelEntries es ≤ g →
    parseObjRest g k v (dumpEntriesTail es ++ .rbrace :: rest) = some ((k, v) :: es, rest)
  | es, _, _, _, 0, h => by have := pfuelEntries_pos es; omega
  | [], k, v, rest, g + 1, _ => by simp [dumpEntriesTail, parseObjRest]
  | (k2, w) :: es, k, v, rest, g + 1, hg => by
      simp [pfuelEntries] at hg
      have h1 := parseVal_dump w (dumpEntriesTail es ++ .rbrace :: rest) g (by omega)
      have h2 := parseObjRest_dump es k2 w rest g (by omega)
      simp [dumpEntriesTail, parseObjRest, h1, h2]

end

mutual

/-- The fuel `pfuel` needs never exceeds twice the dumped token count. -/
theorem pfuel_le : ∀ (v : Value), pfuel v ≤ 2 * (dumpToks v).length
  | .null => by simp [pfuel, dumpToks]
  | .bool true => by simp [pfuel, dumpToks]
  | .bool false => by simp [pfuel, dumpToks]
  | .int _ => by simp [pfuel, dumpToks]
  | .float .nan => by simp [pfuel, dumpToks]
  | .float (.inf false) => by simp [pfuel, dumpToks]
  | .float (.inf true) => by simp [pfuel, dumpToks]
  | .float (.finite _) => by simp [pfuel, dumpToks]
  | .str _ => by simp [pfuel, dumpToks]
  | .arr [] => by simp [pfuel, pfuelItems, dumpToks, dumpItems]
  | .arr (x :: xs) => by
      have h1 := pfuel_le x
      have h2 := pfuelItems_le xs
      simp [pfuel, pfuelItems, dumpToks, dumpItems_cons] at h1 h2 ⊢
      omega
  | .dict [] => by simp [pfuel, pfuelEntries, dumpToks, dumpEntries]
  | .dict ((k, v) :: es) => by
      have h1 := pfuel_le v
      have h2 := pfuelEntries_le es
      simp [pfuel, pfuelEntries, dumpToks, dumpEntries_cons] at h1 h2 ⊢
      omega

/-- Item-tail version of `pfuel_le`. -/
theorem pfuelItems_le : ∀ (xs : List Value),
    pfuelItems xs ≤ 2 * (dumpItemsTail xs).length + 1
  | [] => by simp [pfuelItems, dumpItemsTail]
  | y :: ys => by
      have h1 := pfuel_le y
      have h2 := pfuelItems_le ys
      simp [pfuelItems, dumpItemsTail] at h1 h2 ⊢
      omega

/-- Member-tail version of `pfuel_le`. -/
theorem pfuelEntries_le : ∀ (es : List (String × Value)),
    pfuelEntries es ≤ 2 * (dumpEntriesTail es).length + 1
  | [] => by simp [pfuelEntries, dumpEntriesTail]
  | (k, v) :: es => by
      have h1 := pfuel_le v
      have h2 := pfuelEntries_le es
      simp [pfuelEntries, dumpEntriesTail] at h1 h2 ⊢
      omega

end

/-- Round-trip at the file level: `json.load` of what `json.dump` wrote
returns the document, structurally unchanged. -/
theorem loads_dump (v : Value) : loads (dumpToks v) = some v := by
  have hf : pfuel v ≤ 2 * (dumpToks v).length + 1 :=
    le_trans (pfuel_le v) (by omega)
  have h := parseVal_dump v [] (2 * (dumpToks v).length + 1) hf
  simp at h
  simp [loads, h]

theorem lookupEntry_isSome_of_mem : ∀ (es : List (String × Value)) (k : String) (v : Value),
    (k, v) ∈ es → (lookupEntry es k).isSome = true
  | [], _, _, h => by simp at h
  | (k0, v0) :: es, k, v, h => by
      rcases List.mem_cons.mp h with h1 | h1
      · obtain ⟨rfl, rfl⟩ := Prod.mk.injEq .. ▸ h1
        simp [lookupEntry]
      · by_cases hk : k0 == k
        · simp [lookupEntry, hk]
        · simp only [lookupEntry, hk, if_neg]
          exact lookupEntry_isSome_of_mem es k v h1

theorem lookupEntry_of_distinct : ∀ (es : List (String × Value)) (k : String) (v : Value),
    distinctKeys (es.map Prod.fst) = true → (k, v) ∈ es → lookupEntry es k = some v
  | [], _, _, _, h => by simp at h
  | (k0, v0) :: es, k, v, hd, h => by
      simp only [List.map_cons, distinctKeys, Bool.and_eq_true, Bool.not_eq_true'] at hd
      rcases List.mem_cons.mp h with h1 | h1
      · obtain ⟨rfl, rfl⟩ := Prod.mk.injEq .. ▸ h1
        simp [lookupEntry]
      · by_cases hk : k0 = k
        · exfalso
          subst hk
          have hmem : k0 ∈ es.map Prod.fst := List.mem_map.mpr ⟨(k0, v), h1, rfl⟩
          have hcon : (es.map Prod.fst).contains k0 = true := by
            simpa [List.contains, List.elem_iff] using hmem
          simp [hcon] at hd
          exact hd.1 v h1
        · have hne : (k0 == k) = false := beq_eq_false_iff_ne.mpr hk
          simp only [lookupEntry, hne, Bool.false_eq_true, if_neg, not_false_iff]
          exact lookupEntry_of_distinct es k v hd.2 h1

theorem pyEqSub_of_lookup : ∀ (es fs : List (String × Value)),
    (∀ k v, (k, v) ∈ es → ∃ w, lookupEntry fs k = some w ∧ pyEq v w = true) →
    pyEqSub es fs = true
  | [], _, _ => by simp [pyEqSub]
  | (k, v) :: es, fs, h => by
      obtain ⟨w, hw, he⟩ := h k v (List.mem_cons_self ..)
      have ht := pyEqSub_of_lookup es fs (fun k2 v2 hm => h k2 v2 (List.mem_cons_of_mem _ hm))
      simp [pyEqSub, hw, he, ht]

mutual

/-- Python `==` is reflexive on nan-free documents satisfying the real
Python dict invariant (distinct keys); a `nan` leaf breaks it, since
`nan != nan`. -/
theorem pyEq_refl : ∀ (v : Value), noNaN v = true → wfDoc v = true → pyEq v v = true
  | .null, _, _ => by simp [pyEq]
  | .bool b, _, _ => by cases b <;> simp [pyEq, numRep, numEq]
  | .int n, _, _ => by simp [pyEq, numRep, numEq]
  | .float .nan, h, _ => by simp [noNaN] at h
  | .float (.inf false), _, _ => by simp [pyEq, numRep, numEq]
  | .float (.inf true), _, _ => by simp [pyEq, numRep, numEq]
  | .float (.finite q), _, _ => by simp [pyEq, numRep, numEq]
  | .str s, _, _ => by simp [pyEq]
  | .arr xs, h1, h2 => by
      have h := pyEqList_refl xs (by simpa [noNaN] using h1) (by simpa [wfDoc] using h2)
      simp [pyEq, h]
  | .dict es, h1, h2 => by
      have hn : noNaNEntries es = true := by simpa [noNaN] using h1
      have hw : distinctKeys (es.map Prod.fst) = true ∧ wfDocEntries es = true := by
        simpa [wfDoc] using h2
      have hmem := pyEqMem es hn hw.2
      have hsub : pyEqSub es es = true :=
        pyEqSub_of_lookup es es (fun k v hkv =>
          ⟨v, lookupEntry_of_distinct es k v hw.1 hkv, hmem k v hkv⟩)
      have hall : es.all (fun e => (lookupEntry es e.1).isSome) = true := by
        rw [List.all_eq_true]
        intro e he
        exact lookupEntry_isSome_of_mem es e.1 e.2 (by simpa using he)
      simp [pyEq, hsub, hall]

/-- Pointwise reflexivity over array items. -/
theorem pyEqList_refl : ∀ (xs : List Value), noNaNList xs = true →
    wfDocList xs = true → pyEqList xs xs = true
  | [], _, _ => by simp [pyEqList]
  | x :: xs, h1, h2 => by
      simp [noNaNList] at h1
      simp [wfDocList] at h2
      have ha := pyEq_refl x h1.1 h2.1
      have hb := pyEqList_refl xs h1.2 h2.2
      simp [pyEqList, ha, hb]

/-- Every value bound in a nan-free well-formed entry list is
`==`-reflexive. -/
theorem pyEqMem : ∀ (es : List (String × Value)), noNaNEntries es = true →
    wfDocEntries es = true → ∀ (k : String) (v : Value), (k, v) ∈ es → pyEq v v = true
  | [], _, _, _, _, h => by simp at h
  | (k0, v0) :: es, h1, h2, k, v, h => by
      simp [noNaNEntries] at h1
      simp [wfDocEntries] at h2
      rcases List.mem_cons.mp h with hh | hh
      · rw [Prod.mk.injEq] at hh
        obtain ⟨rfl, rfl⟩ := hh
        exact pyEq_refl v h1.1 h2.1
      · exact pyEqMem es h1.2 h2.2 k v hh

end

/-- The condition the `set` segment loop requires of a document: every
segment but the last resolves to an existing nested dict. Its failure is
the claim's "intermediate segment absent or holding a non-document". -/
def parentsOk : Value → List String → Bool
  | _, [] => true
  | _, [_] => true
  | .dict es, k :: rest =>
    (match lookupEntry es k with
     | some (.dict es2) => parentsOk (.dict es2) rest
     | _ => false)
  | _, _ :: _ :: _ => false

/-- When an intermediate segment is absent or holds a non-dict, the `set`
traversal takes the invalid-parent error branch. -/
theorem setPath_invalid_of_parentsOk_false :
    ∀ (segs : List String) (es : List (String × Value)) (x : Value),
    parentsOk (.dict es) segs = false →
    setPath (.dict es) segs x = .error .invalidParentPath
  | [], es, x, h => by simp [parentsOk] at h
  | [k], es, x, h => by simp [parentsOk] at h
  | k :: k2 :: rest, es, x, h => by
      simp only [parentsOk] at h
      match hl : lookupEntry es k with
      | some (.dict es2) =>
        rw [hl] at h
        have ih := setPath_invalid_of_parentsOk_false (k2 :: rest) es2 x h
        simp [setPath, hl, ih]
      | some .null | some (.bool _) | some (.int _) | some (.float _)
      | some (.str _) | some (.arr _) | none =>
        simp [setPath, hl]

/-- The document a file state holds, when it parses. -/
def storedDoc : FileState → Option Value
  | .file ts => loads ts
  | _ => none

/-- The value under a top-level key of the stored document. -/
def storedTop (fs : FileState) (k : String) : Option Value :=
  match storedDoc fs with
  | some (.dict es) => lookupEntry es k
  | _ => none

/-- What `config get` prints as the resolved value for a dotted path,
reading the given file state. -/
def storedGet (fs : FileState) (key : String) : Option Value :=
  (get_config_value key fs true).printedValue

/-- Whether the on-disk file, when present, is strict RFC 8259 JSON at
the token level. -/
def fileIsRfcJson : FileState → Bool
  | .file ts => ts.all rfcTok
  | _ => true

/-- The raw strings captured by the keyword branches of the coercion. -/
def isCoerceKeyword (s : String) : Bool :=
  lowerStr s == "true" || lowerStr s == "false" ||
    lowerStr s == "none" || lowerStr s == "null"

mutual

/-- The dumped token stream is strict RFC 8259 JSON exactly when the
value holds no non-finite float. -/
theorem dump_rfc : ∀ (v : Value), (dumpToks v).all rfcTok = allFinite v
  | .null => by simp [dumpToks, allFinite, rfcTok]
  | .bool true => by simp [dumpToks, allFinite, rfcTok]
  | .bool false => by simp [dumpToks, allFinite, rfcTok]
  | .int _ => by simp [dumpToks, allFinite, rfcTok]
  | .float .nan => by simp [dumpToks, allFinite, rfcTok]
  | .float (.inf false) => by simp [dumpToks, allFinite, rfcTok]
  | .float (.inf true) => by simp [dumpToks, allFinite, rfcTok]
  | .float (.finite _) => by simp [dumpToks, allFinite, rfcTok]
  | .str _ => by simp [dumpToks, allFinite, rfcTok]
  | .arr xs => by
      have h := dumpItems_rfc xs
      simp [dumpToks, allFinite, rfcTok, List.all_append, h]
  | .dict es => by
      have h := dumpEntries_rfc es
      simp [dumpToks, allFinite, rfcTok, List.all_append, h]

/-- Item-list version of `dump_rfc`. -/
theorem dumpItems_rfc : ∀ (xs : List Value), (dumpItems xs).all rfcTok = allFiniteList xs
  | [] => by simp [dumpItems, allFiniteList]
  | [x] => by
      have h := dump_rfc x
      simp [dumpItems, allFiniteList, h]
  | x :: y :: ys => by
      have h1 := dump_rfc x
      have h2 := dumpItems_rfc (y :: ys)
      simp [dumpItems, allFiniteList, List.all_append, rfcTok, h1] at h2 ⊢
      rw [h2]

/-- Member-list version of `dump_rfc`. -/
theorem dumpEntries_rfc : ∀ (es : List (String × Value)),
    (dumpEntries es).all rfcTok = allFiniteEntries es
  | [] => by simp [dumpEntries, allFiniteEntries]
  | [(k, v)] => by
      have h := dump_rfc v
      simp [dumpEntries, allFiniteEntries, rfcTok, h]
  | (k, v) :: e :: es => by
      have h1 := dump_rfc v
      have h2 := dumpEntries_rfc (e :: es)
      simp [dumpEntries, allFiniteEntries, List.all_append, rfcTok, h1] at h2 ⊢
      rw [h2]

end

/-- C1: the stored value of `set` is determined by the coercion priority
order — case-insensitive "true"/"false" become booleans, case-insensitive
"none"/"null" become null, otherwise integer parse is tried, then
floating-point parse, otherwise the string is kept verbatim; in
particular `set("default_gas_limit","300000")` stores the integer 300000,
`set("k","true")` stores boolean true and `set("k","null")` stores null. -/
theorem coercion_priority_order :
    (∀ s : String, lowerStr s = "true" → coerceValue s = .bool true) ∧
    (∀ s : String, lowerStr s = "false" → coerceValue s = .bool false) ∧
    (∀ s : String, lowerStr s = "none" ∨ lowerStr s = "null" → coerceValue s = .null) ∧
    (∀ (s : String) (n : Int), isCoerceKeyword s = false → pyInt s = some n →
       coerceValue s = .int n) ∧
    (∀ (s : String) (f : FloatVal), isCoerceKeyword s = false → pyInt s = none →
       pyFloat s = some f → coerceValue s = .float f) ∧
    (∀ s : String, isCoerceKeyword s = false → pyInt s = none → pyFloat s = none →
       coerceValue s = .str s) ∧
    storedTop (set_config_value "default_gas_limit" "300000"
      (.file (dumpToks DEFAULT_CONFIG)) true).fs "default_gas_limit" = some (.int 300000) ∧
    storedTop (set_config_value "k" "true"
      (.file (dumpToks DEFAULT_CONFIG)) true).fs "k" = some (.bool true) ∧
    storedTop (set_config_value "k" "null"
      (.file (dumpToks DEFAULT_CONFIG)) true).fs "k" = some .null := by
  refine ⟨?_, ?_, ?_, ?_, ?_, ?_, rfl, rfl, rfl⟩
  · intro s h
    simp [coerceValue, h]
  · intro s h
    simp [coerceValue, h]
  · rintro s (h | h) <;> simp [coerceValue, h]
  · intro s n hk hi
    simp only [isCoerceKeyword, Bool.or_eq_false_iff, beq_eq_false_iff_ne] at hk
    simp [coerceValue, hk.1.1.1, hk.1.1.2, hk.1.2, hk.2, hi]
  · intro s f hk hi hf
    simp only [isCoerceKeyword, Bool.or_eq_false_iff, beq_eq_false_iff_ne] at hk
    simp [coerceValue, hk.1.1.1, hk.1.1.2, hk.1.2, hk.2, hi, hf]
  · intro s hk hi hf
    simp only [isCoerceKeyword, Bool.or_eq_false_iff, beq_eq_false_iff_ne] at hk
    simp [coerceValue, hk.1.1.1, hk.1.1.2, hk.1.2, hk.2, hi, hf]

/-- Witness for C1 at concrete inputs, one per branch of the priority
order. -/
theorem coercion_priority_order_witness :
    coerceValue "TRUE" = .bool true ∧
    coerceValue "False" = .bool false ∧
    coerceValue "None" = .null ∧
    coerceValue " 42 " = .int 42 ∧
    coerceValue "3.5" = .float (.finite (decimalQ 3 5 1 0)) ∧
    coerceValue "http://x" = .str "http://x" ∧
    coerceValue "_5" = .str "_5" :=
  ⟨coercion_priority_order.1 "TRUE" rfl,
   coercion_priority_order.2.1 "False" rfl,
   coercion_priority_order.2.2.1 "None" (Or.inl rfl),
   coercion_priority_order.2.2.2.1 " 42 " 42 rfl rfl,
   coercion_priority_order.2.2.2.2.1 "3.5" (.finite (decimalQ 3 5 1 0)) rfl rfl rfl,
   coercion_priority_order.2.2.2.2.2.1 "http://x" rfl rfl rfl,
   coercion_priority_order.2.2.2.2.2.1 "_5" rfl rfl rfl⟩

/-- C9: the integer and floating-point fallbacks are Python's
`int()`/`float()`, so inputs that are not plain decimal numerals still
coerce to numbers — surrounding whitespace (`" 42 "` becomes the integer
42), underscore separators (`"1_000"` becomes 1000), and the named
non-finite values (`"inf"` and `"nan"` become non-finite floats). -/
theorem coercion_python_numeric_parsing :
    pyInt " 42 " = some 42 ∧ coerceValue " 42 " = .int 42 ∧
    pyInt "1_000" = some 1000 ∧ coerceValue "1_000" = .int 1000 ∧
    pyFloat "inf" = some (.inf false) ∧ coerceValue "inf" = .float (.inf false) ∧
    pyFloat "nan" = some .nan ∧ coerceValue "nan" = .float .nan ∧
    allFinite (coerceValue "inf") = false ∧
    allFinite (coerceValue "nan") = false :=
  ⟨rfl, rfl, rfl, rfl, rfl, rfl, rfl, rfl, rfl, rfl⟩

/-- C10: `set` with the empty string as key path does not fail — the path
splits into the single empty segment, so the coerced value is assigned
under the top-level key `""` and the document is persisted. -/
theorem set_empty_key :
    splitDot "" = [""] ∧
    (∀ (es : List (String × Value)) (value : String) (ts : List JTok),
      loads ts = some (.dict es) →
      set_config_value "" value (.file ts) true =
        ⟨0, true, false, false,
         .file (dumpToks (.dict (setEntry es "" (coerceValue value))))⟩) := by
  refine ⟨rfl, ?_⟩
  intro es value ts hload
  simp [set_config_value, load_config, hload, splitDot, splitDotAux, setPath, save_config]

/-- Witness for C10: setting the empty key on the default document
persists the coerced value under the key `""`. -/
theorem set_empty_key_witness :
    (set_config_value "" "1" (.file (dumpToks DEFAULT_CONFIG)) true).printedSuccess = true ∧
    storedTop (set_config_value "" "1" (.file (dumpToks DEFAULT_CONFIG)) true).fs ""
      = some (.int 1) := by
  have h := set_empty_key.2 _ "1" (dumpToks DEFAULT_CONFIG) (loads_dump DEFAULT_CONFIG)
  rw [h]
  exact ⟨rfl, by simp [storedTop, storedDoc, loads_dump]; rfl⟩

/-- C2: for every dotted path with an intermediate segment that is absent
or holds a non-document, `set` takes the invalid-parent error branch,
auto-creates nothing, and leaves the on-disk file unchanged (no write
happens); in particular `set("default_network.sub","x")` fails this way
because `default_network` holds a string. -/
theorem set_invalid_parent_path :
    (∀ (es : List (String × Value)) (ts : List JTok) (key value : String) (ioOk : Bool),
      loads ts = some (.dict es) →
      parentsOk (.dict es) (splitDot key) = false →
      set_config_value key value (.file ts) ioOk = ⟨0, false, true, false, .file ts⟩) ∧
    set_config_value "default_network.sub" "x" (.file (dumpToks DEFAULT_CONFIG)) true =
      ⟨0, false, true, false, .file (dumpToks DEFAULT_CONFIG)⟩ := by
  constructor
  · intro es ts key value ioOk hload hbad
    have hsp := setPath_invalid_of_parentsOk_false (splitDot key) es (coerceValue value) hbad
    simp [set_config_value, load_config, hload, hsp]
  · rfl

/-- Witness for C2: a three-segment path whose middle segment holds a
string likewise fails without writing. -/
theorem set_invalid_parent_path_witness :
    set_config_value "default_rpc_urls.goerli.x" "v" (.file (dumpToks DEFAULT_CONFIG)) true =
      ⟨0, false, true, false, .file (dumpToks DEFAULT_CONFIG)⟩ :=
  set_invalid_parent_path.1 _ _ "default_rpc_urls.goerli.x" "v" true
    (loads_dump DEFAULT_CONFIG) rfl

/-- C3: `load` writes and returns the built-in defaults when the file is
absent; when the file is present but unreadable or unparseable it warns
and returns the defaults WITHOUT touching the on-disk file. -/
theorem load_missing_and_corrupt :
    ((load_config .absent true).doc = DEFAULT_CONFIG ∧
     (load_config .absent true).fs = .file (dumpToks DEFAULT_CONFIG) ∧
     (load_config .absent true).warned = false) ∧
    (∀ (ts : List JTok) (ioOk : Bool), loads ts = none →
      load_config (.file ts) ioOk = ⟨DEFAULT_CONFIG, .file ts, true⟩) ∧
    (∀ ioOk : Bool, load_config .unreadable ioOk = ⟨DEFAULT_CONFIG, .unreadable, true⟩) := by
  refine ⟨⟨rfl, rfl, rfl⟩, ?_, fun _ => rfl⟩
  intro ts ioOk h
  simp [load_config, h]

/-- Witness for C3: a file holding a lone comma does not parse, so `load`
returns the defaults, warns, and leaves the file as it is. -/
theorem load_missing_and_corrupt_witness :
    load_config (.file [.comma]) true = ⟨DEFAULT_CONFIG, .file [.comma], true⟩ :=
  load_missing_and_corrupt.2.1 [.comma] true rfl

/-- C4: for a non-empty dotted path, `get` fails with the key-not-found
error when a segment is absent from its dict and with the
not-a-traversable error when a segment must be read out of a non-document
value; both failures print an error message, exit with status 0 and leave
the document and file unchanged; an empty path prints the full document. -/
theorem get_error_handling :
    (∀ (ts : List JTok) (D : Value) (ioOk : Bool), loads ts = some D →
      get_config_value "" (.file ts) ioOk = ⟨0, true, none, false, false, .file ts⟩) ∧
    (∀ (es : List (String × Value)) (k : String) (rest : List String),
      lookupEntry es k = none → getPath (.dict es) (k :: rest) = .error .keyNotFound) ∧
    (∀ (v : Value) (segs : List String), (∀ es, v ≠ .dict es) → segs ≠ [] →
      getPath v segs = .error .notATraversable) ∧
    (∀ (ts : List JTok) (D : Value) (key : String) (ioOk : Bool),
      loads ts = some D → key ≠ "" →
      getPath D (splitDot key) = .error .keyNotFound →
      get_config_value key (.file ts) ioOk = ⟨0, false, none, true, false, .file ts⟩) ∧
    (∀ (ts : List JTok) (D : Value) (key : String) (ioOk : Bool),
      loads ts = some D → key ≠ "" →
      getPath D (splitDot key) = .error .notATraversable →
      get_config_value key (.file ts) ioOk = ⟨0, false, none, false, true, .file ts⟩) := by
  refine ⟨?_, ?_, ?_, ?_, ?_⟩
  · intro ts D ioOk h
    simp [get_config_value, load_config, h]
  · intro es k rest h
    simp [getPath, h]
  · intro v segs hv hs
    match v, segs with
    | .dict es, _ => exact absurd rfl (hv es)
    | .null, s :: ss => simp [getPath]
    | .bool b, s :: ss => simp [getPath]
    | .int n, s :: ss => simp [getPath]
    | .float f, s :: ss => simp [getPath]
    | .str s2, s :: ss => simp [getPath]
    | .arr xs, s :: ss => simp [getPath]
    | .null, [] => exact absurd rfl hs
    | .bool _, [] => exact absurd rfl hs
    | .int _, [] => exact absurd rfl hs
    | .float _, [] => exact absurd rfl hs
    | .str _, [] => exact absurd rfl hs
    | .arr _, [] => exact absurd rfl hs
  · intro ts D key ioOk hl hk hg
    have hb : (key == "") = false := beq_eq_false_iff_ne.mpr hk
    simp [get_config_value, load_config, hl, hb, hg]
  · intro ts D key ioOk hl hk hg
    have hb : (key == "") = false := beq_eq_false_iff_ne.mpr hk
    simp [get_config_value, load_config, hl, hb, hg]

/-- Witness for C4: a missing top-level key gives the key-not-found
error; a path through the string `default_network` gives the
not-a-traversable error; both exit 0 with the file unchanged. -/
theorem get_error_handling_witness :
    get_config_value "no_such_key" (.file (dumpToks DEFAULT_CONFIG)) true =
      ⟨0, false, none, true, false, .file (dumpToks DEFAULT_CONFIG)⟩ ∧
    get_config_value "default_network.sub" (.file (dumpToks DEFAULT_CONFIG)) true =
      ⟨0, false, none, false, true, .file (dumpToks DEFAULT_CONFIG)⟩ :=
  ⟨get_error_handling.2.2.2.1 _ _ "no_such_key" true
      (loads_dump DEFAULT_CONFIG) (by decide) rfl,
   get_error_handling.2.2.2.2 _ _ "default_network.sub" true
      (loads_dump DEFAULT_CONFIG) (by decide) rfl⟩

/-- C5 counterexample: with the save failing (`ioOk = false`), `config
set` still exits with status 0 and still prints its success confirmation
— the claimed non-zero exit and caller-visible failure do not happen. -/
theorem set_io_failure_counterexample :
    (set_config_value "k" "v" (.file (dumpToks DEFAULT_CONFIG)) false).exitCode = 0 ∧
    (set_config_value "k" "v" (.file (dumpToks DEFAULT_CONFIG)) false).printedSuccess = true :=
  ⟨rfl, rfl⟩

/-- C5 amended: on a save I/O failure `save_config` prints an error
message but returns normally, giving its caller no error indication, so
`config set` still prints its success confirmation and exits 0; the
on-disk file is left unchanged, so in-memory and persisted state diverge
silently. -/
theorem set_io_failure_behavior :
    (∀ (D : Value) (fs : FileState), save_config D fs false = (fs, true)) ∧
    (∀ (ts : List JTok) (D newDoc : Value) (key value : String),
      loads ts = some D →
      setPath D (splitDot key) (coerceValue value) = .ok newDoc →
      set_config_value key value (.file ts) false = ⟨0, true, false, true, .file ts⟩) := by
  constructor
  · intro D fs
    simp [save_config]
  · intro ts D newDoc key value hl hs
    simp [set_config_value, load_config, hl, hs, save_config]

/-- Witness for the amended C5 at a concrete failing save. -/
theorem set_io_failure_behavior_witness :
    set_config_value "k" "v2" (.file (dumpToks DEFAULT_CONFIG)) false =
      ⟨0, true, false, true, .file (dumpToks DEFAULT_CONFIG)⟩ :=
  set_io_failure_behavior.2 (dumpToks DEFAULT_CONFIG) DEFAULT_CONFIG _ "k" "v2"
    (loads_dump DEFAULT_CONFIG) rfl

/-- C6 counterexample: the document `{"k": nan}` — producible by
`set("k","nan")` — is returned structurally intact by load-after-save,
yet Python deep equality (`==`) rejects it, because `nan != nan`; so
"returns a document deep-equal to D" fails at this D. -/
theorem roundtrip_nan_deep_equal_counterexample :
    coerceValue "nan" = .float .nan ∧
    (load_config (save_config (.dict [("k", .float .nan)]) .absent true).1 true).doc
      = .dict [("k", .float .nan)] ∧
    pyEq (load_config (save_config (.dict [("k", .float .nan)]) .absent true).1 true).doc
      (.dict [("k", .float .nan)]) = false :=
  ⟨rfl, rfl, rfl⟩

/-- C6 amended: load immediately after save returns the document
structurally unchanged, and Python deep equality (`==`) moreover holds
whenever the document has no nan leaf (under the distinct-key invariant
every real dict has) — a nan leaf alone defeats it since `nan != nan`;
the goerli set/get instance holds as stated. -/
theorem save_load_roundtrip :
    (∀ (D : Value) (fs : FileState),
      (load_config (save_config D fs true).1 true).doc = D) ∧
    (∀ (D : Value) (fs : FileState), noNaN D = true → wfDoc D = true →
      pyEq (load_config (save_config D fs true).1 true).doc D = true) ∧
    storedGet (set_config_value "default_rpc_urls.goerli" "http://x"
        (.file (dumpToks DEFAULT_CONFIG)) true).fs "default_rpc_urls.goerli"
      = some (.str "http://x") := by
  refine ⟨?_, ?_, rfl⟩
  · intro D fs
    simp [save_config, load_config, loads_dump]
  · intro D fs h1 h2
    have hd : (load_config (save_config D fs true).1 true).doc = D := by
      simp [save_config, load_config, loads_dump]
    rw [hd]
    exact pyEq_refl D h1 h2

/-- Witness for the amended C6 at the built-in default document. -/
theorem save_load_roundtrip_witness :
    pyEq (load_config (save_config DEFAULT_CONFIG .absent true).1 true).doc
      DEFAULT_CONFIG = true :=
  save_load_roundtrip.2.1 DEFAULT_CONFIG .absent rfl rfl

/-- C7 counterexample: a parseable file lacking the schema keys is
returned verbatim — `load` of a file holding the empty JSON object
yields a document with none of the default keys; no defaults are
merged in. -/
theorem load_sparse_doc_counterexample :
    (load_config (.file (dumpToks (.dict []))) true).doc = .dict [] ∧
    hasDefaultKeys (load_config (.file (dumpToks (.dict []))) true).doc = false :=
  ⟨rfl, rfl⟩

/-- C7 amended: `load` returns a document carrying all default-schema
keys when the file is missing, unreadable or unparseable; when the file
parses, the parsed value is returned verbatim and may lack schema keys
(or not be an object at all). -/
theorem load_default_keys :
    (∀ ioOk : Bool, hasDefaultKeys (load_config .absent ioOk).doc = true) ∧
    (∀ ioOk : Bool, hasDefaultKeys (load_config .unreadable ioOk).doc = true) ∧
    (∀ (ts : List JTok) (ioOk : Bool), loads ts = none →
      hasDefaultKeys (load_config (.file ts) ioOk).doc = true) ∧
    (∀ (ts : List JTok) (v : Value) (ioOk : Bool), loads ts = some v →
      (load_config (.file ts) ioOk).doc = v) := by
  refine ⟨fun _ => rfl, fun _ => rfl, ?_, ?_⟩
  · intro ts ioOk h
    simp only [load_config, h]
    rfl
  · intro ts v ioOk h
    simp [load_config, h]

/-- Witness for the amended C7: an unparseable file and a sparse but
parseable file. -/
theorem load_default_keys_witness :
    hasDefaultKeys (load_config (.file [.comma]) true).doc = true ∧
    (load_config (.file (dumpToks (.dict []))) true).doc = .dict [] :=
  ⟨load_default_keys.2.2.1 [.comma] true rfl,
   load_default_keys.2.2.2 (dumpToks (.dict [])) (.dict []) true rfl⟩

/-- C8 counterexample: `set("k","nan")` completes (success printed) and
writes a file containing the bare token `NaN`, which the JSON grammar of
RFC 8259 does not allow — the on-disk file is not valid JSON. -/
theorem save_nonjson_counterexample :
    (set_config_value "k" "nan" (.file (dumpToks DEFAULT_CONFIG)) true).printedSuccess
      = true ∧
    fileIsRfcJson (set_config_value "k" "nan" (.file (dumpToks DEFAULT_CONFIG)) true).fs
      = false :=
  ⟨rfl, rfl⟩

/-- C8 amended: every completed write (`set`, `reset`,
load-after-missing-file) leaves a file the program's own loader parses
back (`json.load` accepts the `NaN`/`Infinity` extension, so no coerced
value makes the file unreadable to the program itself), and the file is
strict RFC 8259 JSON exactly when the written document holds no
non-finite float — the coerced values of "nan"/"inf"/"-inf" violate
that. -/
theorem save_wellformed :
    (∀ (D : Value) (fs : FileState), storedDoc (save_config D fs true).1 = some D) ∧
    (∀ (D : Value) (fs : FileState),
      fileIsRfcJson (save_config D fs true).1 = allFinite D) ∧
    (∀ (ts : List JTok) (D : Value) (key value : String), loads ts = some D →
      (storedDoc (set_config_value key value (.file ts) true).fs).isSome = true) ∧
    (∀ fs : FileState, storedDoc (reset_config fs true).1 = some DEFAULT_CONFIG) ∧
    storedDoc (load_config .absent true).fs = some DEFAULT_CONFIG := by
  refine ⟨?_, ?_, ?_, ?_, ?_⟩
  · intro D fs
    simp [save_config, storedDoc, loads_dump]
  · intro D fs
    simp [save_config, fileIsRfcJson, dump_rfc]
  · intro ts D key value hl
    cases hs : setPath D (splitDot key) (coerceValue value) with
    | ok newDoc =>
      simp [set_config_value, load_config, hl, hs, save_config, storedDoc, loads_dump]
    | error e =>
      cases e <;> simp [set_config_value, load_config, hl, hs, storedDoc]
  · intro fs
    simp [reset_config, save_config, storedDoc, loads_dump]
  · simp [load_config, save_config, storedDoc, loads_dump]

/-- Witness for the amended C8: a concrete `set` leaves a loadable file;
a saved document with an infinity is not RFC-valid on disk. -/
theorem save_wellformed_witness :
    (storedDoc (set_config_value "default_gas_limit" "300000"
       (.file (dumpToks DEFAULT_CONFIG)) true).fs).isSome = true ∧
    fileIsRfcJson (save_config (.dict [("k", .float (.inf false))]) .absent true).1
      = false :=
  ⟨save_wellformed.2.2.1 _ _ "default_gas_limit" "300000" (loads_dump DEFAULT_CONFIG),
   by rw [save_wellformed.2.1]; rfl⟩
